import Mathlib

/-!
Verification of the blog-platform core: soft deletion, articles, comments
and likes, shallowly embedded from the repository's Django source.

Conventions of the embedding:
* a database table is a `List` of rows, in insertion order;
* timestamps are `Nat` (only equality and order matter to the claims);
* a Django queryset filter becomes `List.filter`, `.first()` / `.get()`
  become `List.find?` over the filtered list;
* the default manager of every model is `SoftDeleteManager`
  (common/managers.py), so every access through `Model.objects`
  carries the extra predicate `is_deleted = false`;
* fallible endpoints return `Except ApiError` or an outcome inductive.
-/

namespace BlogPlatform

abbrev UserId := Nat
abbrev Time := Nat

/-- Error kinds of the spec's taxonomy (§7), as surfaced by the endpoints:
`notFound` is an HTTP 404, `forbidden` a 403, `conflict` the
"uniqueness invariant would be violated" client error. -/
inductive ApiError where
  | notFound
  | forbidden
  | conflict
  deriving Repr, DecidableEq

/-- Shared lifecycle fields of `common/models.py BaseModel` (abstract base of
Article, Comment and Like), with the entity's own columns in `fields`.
`created_at` is set on insert (`auto_now_add`), `updated_at` on every save
(`auto_now`). -/
structure BaseModel (α : Type) where
  id : Nat
  created_at : Time
  updated_at : Time
  deleted_at : Option Time
  is_deleted : Bool
  fields : α
  deriving Repr, DecidableEq

/-- Embeds `BaseModel.delete`: soft delete. Sets `is_deleted = True`,
`deleted_at = timezone.now()` and saves (so `auto_now` bumps `updated_at`);
no other column is touched and the row is not removed. -/
def BaseModel.delete {α : Type} (r : BaseModel α) (now : Time) : BaseModel α :=
  { r with is_deleted := true, deleted_at := some now, updated_at := now }

/-- Embeds `BaseModel.restore`: clears `is_deleted` and `deleted_at` and saves. -/
def BaseModel.restore {α : Type} (r : BaseModel α) (now : Time) : BaseModel α :=
  { r with is_deleted := false, deleted_at := none, updated_at := now }

/-- The entity columns of `articles/models.py Article`. -/
structure ArticleFields where
  author : UserId
  title : String
  content : String
  tags : String
  is_published : Bool
  deriving Repr, DecidableEq

abbrev Article := BaseModel ArticleFields

/-- The entity columns of `comments/models.py Comment`; `article` holds the
id of the parent article. -/
structure CommentFields where
  user : UserId
  article : Nat
  text : String
  deriving Repr, DecidableEq

abbrev Comment := BaseModel CommentFields

/-- The entity columns of `likes/models.py Like`. -/
structure LikeFields where
  user : UserId
  article : Nat
  deriving Repr, DecidableEq

abbrev Like := BaseModel LikeFields

/-- Python `str.split(sep)` over the character list: every separator starts a
new segment, so adjacent separators yield empty segments and
`"".split(',') = [""]`. Called with `acc = []`. -/
def pySplit (sep : Char) : List Char → List Char → List (List Char)
  | [], acc => [acc.reverse]
  | c :: rest, acc =>
    if c = sep then acc.reverse :: pySplit sep rest []
    else pySplit sep rest (c :: acc)

/-- Python `str.strip()`: drop whitespace from both ends. -/
def pyStrip (s : List Char) : List Char :=
  ((s.dropWhile Char.isWhitespace).reverse.dropWhile Char.isWhitespace).reverse

/-- The Python expression `[tag.strip() for tag in s.split(',')]`. -/
def pySplitStrip (s : String) : List String :=
  (pySplit ',' s.toList []).map (fun seg => (pyStrip seg).asString)

/-- Embeds `Article.tag_list` (articles/models.py): Python
`[tag.strip() for tag in self.tags.split(',')] if self.tags else []`.
The guard `if self.tags` is Python truthiness: the empty string yields `[]`;
otherwise every comma-separated segment is kept, stripped, empties included. -/
def Article.tag_list (a : Article) : List String :=
  if a.fields.tags = "" then [] else pySplitStrip a.fields.tags

/-- The tag list exactly as the spec's words describe it: the comma-split
segments of `tags`, each trimmed, with empty segments dropped, in original
order. (This also matches the list `ArticleCreateSerializer.validate_tags`
builds for its count check: `[tag.strip() for tag in value.split(',') if
tag.strip()]`.) -/
def specTagList (tags : String) : List String :=
  (pySplitStrip tags).filter (fun t => t ≠ "")

/-- A concrete stored article whose `tags` column contains an empty
comma-separated segment. -/
def tagDemoArticle : Article :=
  { id := 1, created_at := 0, updated_at := 0, deleted_at := none,
    is_deleted := false,
    fields := { author := 1, title := "Hello post", content := "c", tags := "lean, ,four",
                is_published := true } }

/-- Embeds `SoftDeleteManager.get_queryset` (common/managers.py): the default access
path of every model, `filter(is_deleted=False)`. -/
def SoftDeleteManager.get_queryset {α : Type} (rows : List (BaseModel α)) : List (BaseModel α) :=
  rows.filter (fun r => !r.is_deleted)

/-- Bulk soft delete of the row with primary key `k`: the effect of
`instance.delete()` on the stored table (the saved instance replaces the
row with the matching id). -/
def softDeleteRowById {α : Type} (rows : List (BaseModel α)) (k : Nat) (now : Time) :
    List (BaseModel α) :=
  rows.map (fun r => if r.id == k then r.delete now else r)

/-- Embeds `ArticleManager.published` (articles/managers.py): the manager's
queryset (`is_deleted=False`) further filtered to `is_published=True`. -/
def ArticleManager.published (articles : List Article) : List Article :=
  (SoftDeleteManager.get_queryset articles).filter (fun a => a.fields.is_published)

/-- Embeds `ArticleViewSet.get_queryset` (articles/views.py):
`Article.objects.filter(is_published=True)` — the soft-delete-filtered
manager queryset restricted to published articles. The request's user is
never consulted. -/
def ArticleViewSet.get_queryset (articles : List Article) : List Article :=
  (SoftDeleteManager.get_queryset articles).filter (fun a => a.fields.is_published)

/-- Embeds `ArticleViewSet.retrieve` via DRF's `get_object`: look the pk up inside
`get_queryset()`; a miss raises Http404. `principal` is the requesting
user (`None` = anonymous); the code never reads it on this path. -/
def ArticleViewSet.retrieve (_principal : Option UserId) (articles : List Article)
    (aid : Nat) : Except ApiError Article :=
  match (ArticleViewSet.get_queryset articles).find? (fun a => a.id == aid) with
  | some a => .ok a
  | none => .error .notFound

/-- Outcome of `ArticleCreateSerializer.create`. -/
inductive CreateArticleOutcome where
  | created (a : Article)
  | conflict
  deriving Repr, DecidableEq

/-- Embeds `ArticleCreateSerializer.create` (articles/serializers.py):
`Article.objects.create(author=user, **validated_data)`. The insert is
subject to the partial unique constraint `unique_author_title`
(articles/models.py Meta.constraints): it is rejected exactly when a row
with the same `(author, title)` and `is_deleted=False` already exists;
soft-deleted rows do not block it. A new row gets a fresh id, the
timestamps of the insert, and the model defaults `is_published=True`,
`is_deleted=False`, `deleted_at=None`. -/
def ArticleCreateSerializer.create (articles : List Article) (author : UserId)
    (title content tags : String) (newId : Nat) (now : Time) :
    List Article × CreateArticleOutcome :=
  if articles.any (fun a => !a.is_deleted && a.fields.author == author &&
      a.fields.title == title) then
    (articles, .conflict)
  else
    let row : Article :=
      { id := newId, created_at := now, updated_at := now, deleted_at := none,
        is_deleted := false,
        fields := { author := author, title := title, content := content,
                    tags := tags, is_published := true } }
    (articles ++ [row], .created row)

/-- The `likes_count` the `list` action returns (articles/views.py):
the SQL aggregate `Count('likes', distinct=True)` joined at query time.
The join matches every like row whose foreign key is this article — the
related model's soft-delete manager plays no part in an aggregate, so
no `is_deleted` condition is attached. -/
def ArticleViewSet.list_likes_count (likes : List Like) (aid : Nat) : Nat :=
  (likes.filter (fun l => l.fields.article == aid)).length

/-- The `comments_count` the `list` action returns:
`Count('comments', distinct=True)`, again with no `is_deleted` condition. -/
def ArticleViewSet.list_comments_count (comments : List Comment) (aid : Nat) : Nat :=
  (comments.filter (fun c => c.fields.article == aid)).length

/-- Embeds `Article.get_likes_count` (articles/models.py): `self.likes.count()`.
The reverse related manager is built from `Like`'s default manager
(`LikeManager`, a `SoftDeleteManager`), so soft-deleted likes are
excluded. Used by the `retrieve` action. -/
def Article.get_likes_count (likes : List Like) (aid : Nat) : Nat :=
  ((SoftDeleteManager.get_queryset likes).filter (fun l => l.fields.article == aid)).length

/-- Embeds `Article.get_comments_count`: `self.comments.count()` through
`CommentManager`, a `SoftDeleteManager`; soft-deleted comments are
excluded. Used by the `retrieve` action. -/
def Article.get_comments_count (comments : List Comment) (aid : Nat) : Nat :=
  ((SoftDeleteManager.get_queryset comments).filter (fun c => c.fields.article == aid)).length

/-- Embeds `CommentViewSet.get_queryset` (comments/views.py):
`Comment.objects.select_related(...)` — just the soft-delete-filtered
manager queryset. The parent article's state is never consulted. -/
def CommentViewSet.get_queryset (comments : List Comment) : List Comment :=
  SoftDeleteManager.get_queryset comments

/-- Embeds `CommentFilter.qs` (comments/filters.py): the filtered queryset with
`filter(is_deleted=False)` applied once more. With no query parameters the
declared filters are no-ops. -/
def CommentFilter.qs (comments : List Comment) : List Comment :=
  (CommentViewSet.get_queryset comments).filter (fun c => !c.is_deleted)

/-- The comment detail endpoint via DRF's `get_object` over the filtered
queryset; a miss is Http404. -/
def CommentViewSet.retrieve (comments : List Comment) (cid : Nat) : Except ApiError Comment :=
  match (CommentFilter.qs comments).find? (fun c => c.id == cid) with
  | some c => .ok c
  | none => .error .notFound

/-- Embeds `CommentManager.for_article` (comments/managers.py):
`self.filter(article=article, is_deleted=False)` on the manager's
already soft-delete-filtered queryset. -/
def CommentManager.for_article (comments : List Comment) (aid : Nat) : List Comment :=
  (SoftDeleteManager.get_queryset comments).filter
    (fun c => c.fields.article == aid && !c.is_deleted)

/-- Embeds `CommentViewSet.by_article` (comments/views.py):
`Article.objects.published().get(id=article_id)` — 404 when no published,
non-deleted article has that id — then `Comment.objects.for_article(article)`. -/
def CommentViewSet.by_article (articles : List Article) (comments : List Comment)
    (aid : Nat) : Except ApiError (List Comment) :=
  match (ArticleManager.published articles).find? (fun a => a.id == aid) with
  | none => .error .notFound
  | some _ => .ok (CommentManager.for_article comments aid)

/-- Embeds `Comment.Meta.ordering` (comments/models.py): `['created_at']`. -/
def commentMetaOrdering : List String := ["created_at"]

/-- Embeds `CommentViewSet.ordering` (comments/views.py): `['-created_at']` — the
default `rest_framework.filters.OrderingFilter`
(settings.py DEFAULT_FILTER_BACKENDS) applies this when the request names
no ordering, overriding the model's `Meta.ordering`. -/
def CommentViewSet.ordering : List String := ["-created_at"]

/-- Embeds `OrderingFilter.get_ordering`: the request's `ordering` parameter when
present (validation against `ordering_fields` is the backend's concern and
does not matter when the parameter is absent), else the view's default. -/
def OrderingFilter.get_ordering (param : Option (List String))
    (viewOrdering : List String) : List String :=
  match param with
  | some keys => keys
  | none => viewOrdering

/-- Newest first: the row order `order_by('-created_at')` produces. -/
def newestFirst (a b : Comment) : Prop := b.created_at ≤ a.created_at

/-- Oldest first: the row order `order_by('created_at')` produces. -/
def oldestFirst (a b : Comment) : Prop := a.created_at ≤ b.created_at

instance : DecidableRel newestFirst := fun a b => Nat.decLe b.created_at a.created_at

instance : DecidableRel oldestFirst := fun a b => Nat.decLe a.created_at b.created_at

instance : IsTotal Comment newestFirst :=
  ⟨fun a b => Nat.le_total b.created_at a.created_at⟩

instance : IsTrans Comment newestFirst :=
  ⟨fun _ _ _ hab hbc => Nat.le_trans hbc hab⟩

/-- Embeds `QuerySet.order_by` for the ordering keys the comment endpoints use
(a stable sort on the creation timestamp); any other key list is left to
the backend's whitelist handling and modelled as the identity (no claim
depends on it). -/
def order_by (keys : List String) (cs : List Comment) : List Comment :=
  if keys = ["-created_at"] then List.insertionSort newestFirst cs
  else if keys = ["created_at"] then List.insertionSort oldestFirst cs
  else cs

/-- The comment list endpoint: `filter_queryset` (CommentFilter, then
OrderingFilter with the view default) over `get_queryset`. -/
def CommentViewSet.list (param : Option (List String)) (comments : List Comment) :
    List Comment :=
  order_by (OrderingFilter.get_ordering param CommentViewSet.ordering)
    (CommentFilter.qs comments)

/-- An active like row of `(user, article)`: the predicate of the partial
unique constraint `unique_user_article_like` (likes/models.py). -/
def isActiveFor (u : UserId) (aid : Nat) (l : Like) : Bool :=
  l.fields.user == u && l.fields.article == aid && !l.is_deleted

/-- The like table plus the id sequence: Django assigns each inserted row
the next value of the primary-key sequence, never reusing one. -/
structure LikeState where
  likes : List Like
  nextId : Nat
  deriving Repr, DecidableEq

/-- Embeds `Like.objects.filter(user=..., article_id=...).first()` (used by
`toggle`) and the `get` half of `get_or_create` (used by `create`): the
soft-delete-filtered queryset narrowed to the pair. `.first()` takes the
first matching row in queryset order; under the uniqueness invariant at
most one row matches, so the order does not matter. -/
def LikeState.firstActive (st : LikeState) (u : UserId) (aid : Nat) : Option Like :=
  ((SoftDeleteManager.get_queryset st.likes).filter
    (fun l => l.fields.user == u && l.fields.article == aid)).head?

/-- Embeds `Like.objects.create(user=..., article_id=...)`: insert a fresh row
with the next id and the model defaults. -/
def LikeState.createRow (st : LikeState) (u : UserId) (aid : Nat) (now : Time) :
    LikeState × Like :=
  let row : Like :=
    { id := st.nextId, created_at := now, updated_at := now, deleted_at := none,
      is_deleted := false, fields := { user := u, article := aid } }
  ({ likes := st.likes ++ [row], nextId := st.nextId + 1 }, row)

/-- Embeds `LikeViewSet.toggle` (likes/views.py): if an active like of the pair
exists, soft-delete it and answer `liked=False`; otherwise create a new
like row and answer `liked=True`. -/
def LikeViewSet.toggle (st : LikeState) (u : UserId) (aid : Nat) (now : Time) :
    LikeState × Bool :=
  match st.firstActive u aid with
  | some l => ({ st with likes := softDeleteRowById st.likes l.id now }, false)
  | none => ((st.createRow u aid now).1, true)

/-- Outcome of `LikeViewSet.create`: `alreadyLiked` is the endpoint's
"You have already liked this article" rejection — the duplicate-active-like
branch, distinct from every field-validation failure. -/
inductive CreateLikeOutcome where
  | created (likeId : Nat)
  | alreadyLiked
  deriving Repr, DecidableEq

/-- Embeds `LikeViewSet.create`: `Like.objects.get_or_create(user=...,
article_id=...)`; when the (soft-delete-filtered) get finds an active like
the endpoint rejects, otherwise it inserts a fresh row. -/
def LikeViewSet.create (st : LikeState) (u : UserId) (aid : Nat) (now : Time) :
    LikeState × CreateLikeOutcome :=
  match st.firstActive u aid with
  | some _ => (st, .alreadyLiked)
  | none =>
    let p := st.createRow u aid now
    (p.1, .created p.2.id)

/-- Outcome of `LikeViewSet.destroy`. -/
inductive DestroyOutcome where
  | removed
  | forbidden
  | notFound
  deriving Repr, DecidableEq

/-- Embeds `LikeViewSet.get_queryset` (likes/views.py):
`Like.objects.filter(user=self.request.user)` — the requester sees only
their own non-deleted likes. -/
def LikeViewSet.get_queryset (st : LikeState) (requester : UserId) : List Like :=
  (SoftDeleteManager.get_queryset st.likes).filter (fun l => l.fields.user == requester)

/-- Embeds `LikeViewSet.destroy`: `get_object` looks the pk up inside
`get_queryset()` (404 on a miss), then the explicit ownership check
returns 403 before `like.delete()` soft-deletes the row. -/
def LikeViewSet.destroy (st : LikeState) (requester : UserId) (likeId : Nat)
    (now : Time) : LikeState × DestroyOutcome :=
  match (LikeViewSet.get_queryset st requester).find? (fun l => l.id == likeId) with
  | none => (st, .notFound)
  | some l =>
    if l.fields.user != requester then (st, .forbidden)
    else ({ st with likes := softDeleteRowById st.likes l.id now }, .removed)

/-- The number of active like rows of `(user, article)`. -/
def activeCount (likes : List Like) (u : UserId) (aid : Nat) : Nat :=
  (likes.filter (isActiveFor u aid)).length

/-- Whether the pair is currently in the liked state. -/
def LikeState.likedState (st : LikeState) (u : UserId) (aid : Nat) : Bool :=
  (st.firstActive u aid).isSome

/-- The like states the API can put the store into: an empty table, then
any sequence of `toggle`, `create` and `destroy` calls (the like endpoints
expose no other mutation — in particular no restore). -/
inductive LikeState.Reachable : LikeState → Prop where
  | init : LikeState.Reachable { likes := [], nextId := 0 }
  | toggle (u aid : Nat) (now : Time) {st : LikeState} :
      LikeState.Reachable st → LikeState.Reachable (LikeViewSet.toggle st u aid now).1
  | create (u aid : Nat) (now : Time) {st : LikeState} :
      LikeState.Reachable st → LikeState.Reachable (LikeViewSet.create st u aid now).1
  | destroy (u k : Nat) (now : Time) {st : LikeState} :
      LikeState.Reachable st → LikeState.Reachable (LikeViewSet.destroy st u k now).1

/-- A like of article 7 that was unliked (soft-deleted) at time 2. -/
def deletedLikeDemo : Like :=
  { id := 3, created_at := 1, updated_at := 2, deleted_at := some 2,
    is_deleted := true, fields := { user := 2, article := 7 } }

/-- A comment on article 7 that was soft-deleted at time 2. -/
def deletedCommentDemo : Comment :=
  { id := 4, created_at := 1, updated_at := 2, deleted_at := some 2,
    is_deleted := true, fields := { user := 2, article := 7, text := "hi" } }

/-- A published article that was soft-deleted at time 3. -/
def deletedArticleDemo : Article :=
  { id := 5, created_at := 0, updated_at := 3, deleted_at := some 3,
    is_deleted := true,
    fields := { author := 1, title := "Gone post", content := "c", tags := "",
                is_published := true } }

/-- An active comment whose parent article is `deletedArticleDemo`. -/
def commentOnDeletedDemo : Comment :=
  { id := 9, created_at := 1, updated_at := 1, deleted_at := none,
    is_deleted := false, fields := { user := 2, article := 5, text := "hi" } }

/-- An unpublished article (a draft). -/
def draftArticleDemo : Article :=
  { id := 6, created_at := 0, updated_at := 0, deleted_at := none,
    is_deleted := false,
    fields := { author := 1, title := "Draft post", content := "c", tags := "",
                is_published := false } }

/-- The older of two demo comments. -/
def commentOldDemo : Comment :=
  { id := 1, created_at := 1, updated_at := 1, deleted_at := none,
    is_deleted := false, fields := { user := 1, article := 5, text := "first" } }

/-- The newer of two demo comments. -/
def commentNewDemo : Comment :=
  { id := 2, created_at := 2, updated_at := 2, deleted_at := none,
    is_deleted := false, fields := { user := 1, article := 5, text := "second" } }

/-- An active like owned by user 1. -/
def ownerLikeDemo : Like :=
  { id := 1, created_at := 1, updated_at := 1, deleted_at := none,
    is_deleted := false, fields := { user := 1, article := 1 } }

/-- A like table holding only `ownerLikeDemo`, with one id already used. -/
def likeStateDemo : LikeState := { likes := [ownerLikeDemo], nextId := 2 }

/-! ### Shared development

Definitions of the invariant the like endpoints maintain, helper lemmas
about filters and the soft-delete map, and the reachability induction. -/

/-- The like-store invariant: every row's id is below the id sequence, and
each `(user, article)` pair has at most one active like row (the partial
unique constraint `unique_user_article_like`). -/
def LikeInvariant (st : LikeState) : Prop :=
  (∀ l ∈ st.likes, l.id < st.nextId) ∧ ∀ u aid : Nat, activeCount st.likes u aid ≤ 1

lemma length_filter_deleted_split {α : Type} (rows : List (BaseModel α))
    (p : BaseModel α → Bool) :
    (rows.filter p).length =
      ((rows.filter (fun r => !r.is_deleted)).filter p).length +
      (rows.filter (fun r => p r && r.is_deleted)).length := by
  induction rows with
  | nil => simp
  | cons x xs ih =>
    by_cases hd : x.is_deleted <;> by_cases hp : p x <;>
      simp [List.filter_cons, hd, hp, ih] <;> omega

lemma softDeleteRowById_id_map {α : Type} (rows : List (BaseModel α)) (k : Nat) (now : Time) :
    (softDeleteRowById rows k now).map (fun r => r.id) = rows.map (fun r => r.id) := by
  have hpt : ∀ r : BaseModel α, (if r.id == k then r.delete now else r).id = r.id := by
    intro r
    by_cases hid : (r.id == k) = true <;> simp [hid, BaseModel.delete]
  unfold softDeleteRowById
  rw [List.map_map]
  exact List.map_congr_left (fun a _ => hpt a)

lemma active_filter_eq (likes : List Like) (u aid : Nat) :
    (SoftDeleteManager.get_queryset likes).filter
      (fun l => l.fields.user == u && l.fields.article == aid) =
    likes.filter (isActiveFor u aid) := by
  induction likes with
  | nil => rfl
  | cons x xs ih =>
    by_cases hd : x.is_deleted <;>
      by_cases hu : (x.fields.user == u) = true <;>
      by_cases ha : (x.fields.article == aid) = true <;>
      simp [SoftDeleteManager.get_queryset, isActiveFor, List.filter_cons, hd, hu, ha] at ih ⊢ <;>
      simpa [SoftDeleteManager.get_queryset] using ih

lemma firstActive_eq_head (st : LikeState) (u aid : Nat) :
    st.firstActive u aid = (st.likes.filter (isActiveFor u aid)).head? := by
  rw [LikeState.firstActive, active_filter_eq]

lemma likedState_false_iff (st : LikeState) (u aid : Nat) :
    st.likedState u aid = false ↔ st.likes.filter (isActiveFor u aid) = [] := by
  rw [LikeState.likedState, firstActive_eq_head]
  cases st.likes.filter (isActiveFor u aid) <;> simp

lemma firstActive_mem_filter (st : LikeState) (u aid : Nat) (l : Like)
    (h : st.firstActive u aid = some l) :
    l ∈ st.likes.filter (isActiveFor u aid) := by
  rw [firstActive_eq_head] at h
  cases hfl : st.likes.filter (isActiveFor u aid) with
  | nil => rw [hfl] at h; exact absurd h (by simp)
  | cons y ys =>
    rw [hfl] at h
    simp at h
    rw [h]
    exact List.mem_cons_self _ _

lemma filter_softDelete_le (likes : List Like) (k : Nat) (now : Time) (u aid : Nat) :
    ((softDeleteRowById likes k now).filter (isActiveFor u aid)).length ≤
      (likes.filter (isActiveFor u aid)).length := by
  rw [← List.countP_eq_length_filter, ← List.countP_eq_length_filter, softDeleteRowById,
    List.countP_map]
  apply List.countP_mono_left
  intro a ha hpa
  by_cases hid : (a.id == k) = true
  · exfalso
    simp [Function.comp, hid, isActiveFor, BaseModel.delete] at hpa
  · simpa [Function.comp, hid] using hpa

lemma after_delete_nil (likes : List Like) (u aid : Nat) (l : Like) (now : Time)
    (hcount : (likes.filter (isActiveFor u aid)).length ≤ 1)
    (hl : l ∈ likes.filter (isActiveFor u aid)) :
    (softDeleteRowById likes l.id now).filter (isActiveFor u aid) = [] := by
  have hlen : (likes.filter (isActiveFor u aid)).length = 1 :=
    Nat.le_antisymm hcount (List.length_pos_of_mem hl)
  obtain ⟨a, ha⟩ := List.length_eq_one.mp hlen
  have hla : l = a := by rw [ha] at hl; simpa using hl
  apply List.filter_eq_nil_iff.mpr
  intro b hb
  obtain ⟨x, hx, hbx⟩ := List.mem_map.mp hb
  by_cases hid : (x.id == l.id) = true
  · rw [if_pos hid] at hbx
    rw [← hbx]
    simp [isActiveFor, BaseModel.delete]
  · rw [if_neg hid] at hbx
    rw [← hbx]
    intro hact
    have hxf : x ∈ likes.filter (isActiveFor u aid) :=
      List.mem_filter.mpr ⟨hx, hact⟩
    rw [ha] at hxf
    have hxa : x = a := by simpa using hxf
    rw [hxa, ← hla] at hid
    simp at hid

lemma create_branch_invariant (st : LikeState) (u aid : Nat) (now : Time)
    (hfa : st.firstActive u aid = none) (hinv : LikeInvariant st) :
    LikeInvariant (st.createRow u aid now).1 := by
  obtain ⟨hids, hcnt⟩ := hinv
  constructor
  · intro l hl
    simp only [LikeState.createRow, List.mem_append, List.mem_singleton] at hl
    rcases hl with hl | hl
    · exact Nat.lt_trans (hids l hl) (Nat.lt_succ_self _)
    · rw [hl]; exact Nat.lt_succ_self _
  · intro u' aid'
    have hnil : st.likes.filter (isActiveFor u aid) = [] := by
      rw [firstActive_eq_head] at hfa
      exact List.head?_eq_none_iff.mp hfa
    unfold activeCount at hcnt ⊢
    simp only [LikeState.createRow, List.filter_append]
    by_cases hrow : (isActiveFor u' aid'
        { id := st.nextId, created_at := now, updated_at := now, deleted_at := none,
          is_deleted := false, fields := { user := u, article := aid } } : Bool) = true
    · have hu : u = u' := by
        have := hrow
        simp [isActiveFor] at this
        exact this.1
      have ha : aid = aid' := by
        have := hrow
        simp [isActiveFor] at this
        exact this.2
      rw [← hu, ← ha, hnil]
      simp [isActiveFor]
    · rw [Bool.not_eq_true] at hrow
      simp [hrow]
      exact hcnt u' aid'

lemma delete_branch_invariant (st : LikeState) (k : Nat) (now : Time)
    (hinv : LikeInvariant st) :
    LikeInvariant { likes := softDeleteRowById st.likes k now, nextId := st.nextId } := by
  obtain ⟨hids, hcnt⟩ := hinv
  constructor
  · intro l hl
    have : l.id ∈ (softDeleteRowById st.likes k now).map (fun r => r.id) :=
      List.mem_map.mpr ⟨l, hl, rfl⟩
    rw [softDeleteRowById_id_map] at this
    obtain ⟨x, hx, hxid⟩ := List.mem_map.mp this
    rw [← hxid]
    exact hids x hx
  · intro u' aid'
    exact Nat.le_trans (filter_softDelete_le st.likes k now u' aid') (hcnt u' aid')

lemma toggle_invariant (st : LikeState) (u aid : Nat) (now : Time)
    (hinv : LikeInvariant st) : LikeInvariant (LikeViewSet.toggle st u aid now).1 := by
  rcases hfa : st.firstActive u aid with _ | l
  · have : (LikeViewSet.toggle st u aid now).1 = (st.createRow u aid now).1 := by
      unfold LikeViewSet.toggle
      rw [hfa]
    rw [this]
    exact create_branch_invariant st u aid now hfa hinv
  · have : (LikeViewSet.toggle st u aid now).1 =
        { likes := softDeleteRowById st.likes l.id now, nextId := st.nextId } := by
      unfold LikeViewSet.toggle
      rw [hfa]
    rw [this]
    exact delete_branch_invariant st l.id now hinv

lemma create_invariant (st : LikeState) (u aid : Nat) (now : Time)
    (hinv : LikeInvariant st) : LikeInvariant (LikeViewSet.create st u aid now).1 := by
  rcases hfa : st.firstActive u aid with _ | l
  · have : (LikeViewSet.create st u aid now).1 = (st.createRow u aid now).1 := by
      unfold LikeViewSet.create
      rw [hfa]
    rw [this]
    exact create_branch_invariant st u aid now hfa hinv
  · have : (LikeViewSet.create st u aid now).1 = st := by
      unfold LikeViewSet.create
      rw [hfa]
    rw [this]
    exact hinv

lemma destroy_invariant (st : LikeState) (u k : Nat) (now : Time)
    (hinv : LikeInvariant st) : LikeInvariant (LikeViewSet.destroy st u k now).1 := by
  cases hfind : (LikeViewSet.get_queryset st u).find? (fun l => l.id == k) with
  | none =>
    have heq : (LikeViewSet.destroy st u k now).1 = st := by
      unfold LikeViewSet.destroy
      rw [hfind]
    rw [heq]
    exact hinv
  | some l =>
    by_cases huser : (l.fields.user != u) = true
    · have heq : (LikeViewSet.destroy st u k now).1 = st := by
        unfold LikeViewSet.destroy
        rw [hfind]
        dsimp only
        rw [if_pos huser]
      rw [heq]
      exact hinv
    · have heq : (LikeViewSet.destroy st u k now).1 =
          { likes := softDeleteRowById st.likes l.id now, nextId := st.nextId } := by
        unfold LikeViewSet.destroy
        rw [hfind]
        dsimp only
        rw [if_neg huser]
      rw [heq]
      exact delete_branch_invariant st l.id now hinv

lemma reachable_invariant (s : LikeState) (h : s.Reachable) : LikeInvariant s := by
  induction h with
  | init =>
    constructor
    · intro l hl
      exact absurd hl (List.not_mem_nil l)
    · intro u aid
      simp [activeCount]
  | toggle u aid now h ih => exact toggle_invariant _ u aid now ih
  | create u aid now h ih => exact create_invariant _ u aid now ih
  | destroy u k now h ih => exact destroy_invariant _ u k now ih

lemma toggle_when_some (st : LikeState) (u aid : Nat) (now : Time) (l : Like)
    (hfa : st.firstActive u aid = some l)
    (hcnt : activeCount st.likes u aid ≤ 1) :
    (LikeViewSet.toggle st u aid now).2 = false ∧
    (LikeViewSet.toggle st u aid now).1.likedState u aid = false := by
  have heq : LikeViewSet.toggle st u aid now =
      ({ likes := softDeleteRowById st.likes l.id now, nextId := st.nextId }, false) := by
    unfold LikeViewSet.toggle
    rw [hfa]
  rw [heq]
  refine ⟨rfl, ?_⟩
  rw [likedState_false_iff]
  exact after_delete_nil st.likes u aid l now hcnt (firstActive_mem_filter st u aid l hfa)

lemma toggle_when_none_state (st : LikeState) (u aid : Nat) (now : Time)
    (hfa : st.firstActive u aid = none) :
    LikeViewSet.toggle st u aid now = ((st.createRow u aid now).1, true) := by
  unfold LikeViewSet.toggle
  rw [hfa]

lemma created_likedState (st : LikeState) (u aid : Nat) (now : Time)
    (hfa : st.firstActive u aid = none) :
    (st.createRow u aid now).1.likedState u aid = true := by
  have hnil : st.likes.filter (isActiveFor u aid) = [] := by
    rw [firstActive_eq_head] at hfa
    exact List.head?_eq_none_iff.mp hfa
  rw [LikeState.likedState, firstActive_eq_head]
  simp [LikeState.createRow, List.filter_append, hnil, isActiveFor]

/-! ### Claims -/

/-- C1: for every record of any entity, `delete` sets `is_deleted` to true
and `deleted_at` to the current time without removing the row or touching
the id, the creation timestamp or any content field (for an article, title
and content in particular), and a subsequent `restore` sets `is_deleted`
back to false and `deleted_at` back to null, leaving everything except
`updated_at` exactly as before the deletion. -/
theorem soft_delete_restore_frame :
    (∀ (α : Type) (r : BaseModel α) (now later : Time),
      (r.delete now).is_deleted = true ∧
      (r.delete now).deleted_at = some now ∧
      (r.delete now).fields = r.fields ∧
      (r.delete now).id = r.id ∧
      (r.delete now).created_at = r.created_at ∧
      ((r.delete now).restore later) =
        { r with is_deleted := false, deleted_at := none, updated_at := later }) ∧
    (∀ (a : Article) (now : Time),
      (BaseModel.delete a now).fields.title = a.fields.title ∧
      (BaseModel.delete a now).fields.content = a.fields.content) := by
  constructor
  · intro α r now later
    refine ⟨rfl, rfl, rfl, rfl, rfl, rfl⟩
  · intro a now
    exact ⟨rfl, rfl⟩

/-- C2: creating an article fails with the conflict error when a non-deleted
article with the same `(author, title)` exists, and once that existing
article (the only active duplicate, with id `k`) is soft-deleted, the same
create succeeds and inserts an active row with that author and title. -/
theorem article_create_conflict_rule (articles : List Article) (author : UserId)
    (title content tags : String) (newId k : Nat) (now later : Time)
    (hdup : ∃ a ∈ articles, a.is_deleted = false ∧ a.fields.author = author ∧
      a.fields.title = title)
    (honly : ∀ a ∈ articles, a.is_deleted = false → a.fields.author = author →
      a.fields.title = title → a.id = k) :
    ArticleCreateSerializer.create articles author title content tags newId now =
      (articles, .conflict) ∧
    ∃ row,
      ArticleCreateSerializer.create (softDeleteRowById articles k later)
          author title content tags newId now =
        (softDeleteRowById articles k later ++ [row], .created row) ∧
      row.is_deleted = false ∧ row.fields.author = author ∧ row.fields.title = title := by
  constructor
  · obtain ⟨a, hmem, hdel, hau, hti⟩ := hdup
    have hany : articles.any (fun a => !a.is_deleted && a.fields.author == author &&
        a.fields.title == title) = true := by
      refine List.any_eq_true.mpr ⟨a, hmem, ?_⟩
      simp [hdel, hau, hti]
    simp [ArticleCreateSerializer.create, hany]
  · have hnone : (softDeleteRowById articles k later).any
        (fun a => !a.is_deleted && a.fields.author == author &&
          a.fields.title == title) = false := by
      rw [Bool.eq_false_iff]
      intro hany
      obtain ⟨b, hbmem, hb⟩ := List.any_eq_true.mp hany
      obtain ⟨x, hxmem, hbx⟩ := List.mem_map.mp hbmem
      by_cases hidx : (x.id == k) = true
      · rw [if_pos hidx] at hbx
        rw [← hbx] at hb
        simp [BaseModel.delete] at hb
      · rw [if_neg hidx] at hbx
        rw [← hbx] at hb
        simp at hb
        obtain ⟨⟨hdel, hau⟩, hti⟩ := hb
        have hk := honly x hxmem hdel hau hti
        exact (by simp [hk] : (x.id == k) = true) |> hidx
    refine ⟨{ id := newId, created_at := now, updated_at := now, deleted_at := none,
              is_deleted := false,
              fields := { author := author, title := title, content := content,
                          tags := tags, is_published := true } }, ?_, rfl, rfl, rfl⟩
    simp [ArticleCreateSerializer.create, hnone]

/-- C3: in every reachable like state, `toggle` soft-deletes the existing
active like and reports `liked=false` when one exists, otherwise creates a
like and reports `liked=true`; `create` on an already-active like answers
the already-liked rejection and leaves the state unchanged; and toggling
twice returns the pair to its original liked state. -/
theorem like_toggle_pair_semantics (st : LikeState) (u aid : Nat) (now later : Time)
    (h : st.Reachable) :
    (st.likedState u aid = true →
      (LikeViewSet.toggle st u aid now).2 = false ∧
      (LikeViewSet.toggle st u aid now).1.likedState u aid = false ∧
      LikeViewSet.create st u aid now = (st, .alreadyLiked)) ∧
    (st.likedState u aid = false →
      (LikeViewSet.toggle st u aid now).2 = true ∧
      (LikeViewSet.toggle st u aid now).1.likedState u aid = true) ∧
    (LikeViewSet.toggle (LikeViewSet.toggle st u aid now).1 u aid later).1.likedState u aid =
      st.likedState u aid := by
  have hinv := reachable_invariant st h
  have hinv2 := reachable_invariant _ (LikeState.Reachable.toggle u aid now h)
  refine ⟨?_, ?_, ?_⟩
  · intro hl
    rcases hfa : st.firstActive u aid with _ | l
    · rw [LikeState.likedState, hfa] at hl
      simp at hl
    · have ht := toggle_when_some st u aid now l hfa (hinv.2 u aid)
      refine ⟨ht.1, ht.2, ?_⟩
      unfold LikeViewSet.create
      rw [hfa]
  · intro hl
    rcases hfa : st.firstActive u aid with _ | l
    · rw [toggle_when_none_state st u aid now hfa]
      exact ⟨rfl, created_likedState st u aid now hfa⟩
    · rw [LikeState.likedState, hfa] at hl
      simp at hl
  · rcases hfa : st.firstActive u aid with _ | l
    · have h0 : st.likedState u aid = false := by
        rw [LikeState.likedState, hfa]
        rfl
      rw [h0]
      have h1 : (LikeViewSet.toggle st u aid now).1.likedState u aid = true := by
        rw [toggle_when_none_state st u aid now hfa]
        exact created_likedState st u aid now hfa
      obtain ⟨l', hl'⟩ : ∃ l',
          (LikeViewSet.toggle st u aid now).1.firstActive u aid = some l' := by
        rw [LikeState.likedState] at h1
        exact Option.isSome_iff_exists.mp h1
      exact (toggle_when_some _ u aid later l' hl' (hinv2.2 u aid)).2
    · have h0 : st.likedState u aid = true := by
        rw [LikeState.likedState, hfa]
        rfl
      rw [h0]
      have ht := toggle_when_some st u aid now l hfa (hinv.2 u aid)
      rcases hfa2 : (LikeViewSet.toggle st u aid now).1.firstActive u aid with _ | l2
      · rw [toggle_when_none_state _ u aid later hfa2]
        exact created_likedState _ u aid later hfa2
      · have := ht.2
        rw [LikeState.likedState, hfa2] at this
        simp at this

/-- C4 counterexample: a table holding one soft-deleted like (and one
soft-deleted comment) on article 7 — the list action's annotated counts
report 1 while the number of non-deleted related rows is 0, so the list
path does not exclude soft-deleted rows as the claim states. -/
theorem list_counts_include_deleted_cex :
    ArticleViewSet.list_likes_count [deletedLikeDemo] 7 = 1 ∧
    Article.get_likes_count [deletedLikeDemo] 7 = 0 ∧
    ArticleViewSet.list_comments_count [deletedCommentDemo] 7 = 1 ∧
    Article.get_comments_count [deletedCommentDemo] 7 = 0 ∧
    deletedLikeDemo.is_deleted = true ∧
    deletedCommentDemo.is_deleted = true := by
  refine ⟨by decide, by decide, by decide, by decide, rfl, rfl⟩

/-- C4 amended: the retrieve path's counts (`get_likes_count`,
`get_comments_count`) count exactly the non-deleted related rows, while the
list path's annotated counts equal those plus the number of soft-deleted
related rows — soft-deleted likes and comments are excluded on retrieve but
included on list. -/
theorem read_counts_amended (likes : List Like) (comments : List Comment) (aid : Nat) :
    ArticleViewSet.list_likes_count likes aid =
      Article.get_likes_count likes aid +
        (likes.filter (fun l => l.fields.article == aid && l.is_deleted)).length ∧
    ArticleViewSet.list_comments_count comments aid =
      Article.get_comments_count comments aid +
        (comments.filter (fun c => c.fields.article == aid && c.is_deleted)).length := by
  constructor
  · exact length_filter_deleted_split likes (fun l => l.fields.article == aid)
  · exact length_filter_deleted_split comments (fun c => c.fields.article == aid)

/-- C5 counterexample: for the stored tags string "lean, ,four", the model's
`tag_list` is ["lean", "", "four"] while the trimmed comma-split with empty
segments dropped is ["lean", "four"], so `tag_list` differs from the claim's
description. -/
theorem tag_list_keeps_empty_cex :
    Article.tag_list tagDemoArticle = ["lean", "", "four"] ∧
    specTagList tagDemoArticle.fields.tags = ["lean", "four"] ∧
    Article.tag_list tagDemoArticle ≠ specTagList tagDemoArticle.fields.tags := by
  refine ⟨by decide, by decide, by decide⟩

/-- C5 amended: `tag_list` is the comma-split of the stored tags string with
each segment trimmed, in original order, with empty segments retained (the
empty tags string alone yields `[]`); dropping the empty segments of
`tag_list` gives exactly the spec's normalized list. -/
theorem tag_list_amended (a : Article) :
    specTagList a.fields.tags = (Article.tag_list a).filter (fun t => t ≠ "") ∧
    (a.fields.tags = "" → Article.tag_list a = []) ∧
    (a.fields.tags ≠ "" → Article.tag_list a = pySplitStrip a.fields.tags) := by
  refine ⟨?_, ?_, ?_⟩
  · by_cases h : a.fields.tags = ""
    · simp [Article.tag_list, specTagList, h]
      decide
    · simp [Article.tag_list, specTagList, h]
  · intro h; simp [Article.tag_list, h]
  · intro h; simp [Article.tag_list, h]

/-- C6: for every principal, the article queryset behind list and retrieve
holds exactly the non-deleted published articles; retrieve on a soft-deleted
or unpublished article answers the not-found error; and the result of
retrieve is independent of the requesting principal — no owner override. -/
theorem article_read_visibility (principal other : Option UserId)
    (articles : List Article)
    (hids : (articles.map (fun a => a.id)).Nodup) :
    (∀ b, b ∈ ArticleViewSet.get_queryset articles ↔
      b ∈ articles ∧ b.is_deleted = false ∧ b.fields.is_published = true) ∧
    (∀ a ∈ articles, a.is_deleted = true ∨ a.fields.is_published = false →
      ArticleViewSet.retrieve principal articles a.id = .error .notFound) ∧
    (∀ aid, ArticleViewSet.retrieve principal articles aid =
      ArticleViewSet.retrieve other articles aid) := by
  refine ⟨?_, ?_, fun _ => rfl⟩
  · intro b
    simp only [ArticleViewSet.get_queryset, SoftDeleteManager.get_queryset,
      List.mem_filter, Bool.not_eq_eq_eq_not, Bool.not_true, and_assoc]
  · intro a hmem hbad
    have hfind : (ArticleViewSet.get_queryset articles).find?
        (fun b => b.id == a.id) = none := by
      rw [List.find?_eq_none]
      intro b hb
      have hvis : b ∈ articles ∧ b.is_deleted = false ∧ b.fields.is_published = true := by
        have := List.mem_filter.mp hb
        have h1 := List.mem_filter.mp this.1
        refine ⟨h1.1, by simpa using h1.2, by simpa using this.2⟩
      intro heq
      have hba : b = a :=
        List.inj_on_of_nodup_map hids hvis.1 hmem (by simpa using heq)
      rcases hbad with h | h
      · rw [hba] at hvis; rw [h] at hvis; exact Bool.true_eq_false.mp hvis.2.1
      · rw [hba] at hvis; rw [h] at hvis; exact Bool.true_eq_false.mp hvis.2.2.symm
    simp [ArticleViewSet.retrieve, hfind]

/-- C7 counterexample: an active comment whose parent article is soft-deleted
(and hence invisible on every article endpoint) is still returned by the
comment list and detail endpoints, so those endpoints do not require the
parent article to be non-deleted and published as the claim states. -/
theorem comment_article_state_cex :
    CommentViewSet.list none [commentOnDeletedDemo] = [commentOnDeletedDemo] ∧
    CommentViewSet.retrieve [commentOnDeletedDemo] 9 = .ok commentOnDeletedDemo ∧
    commentOnDeletedDemo.fields.article = deletedArticleDemo.id ∧
    deletedArticleDemo.is_deleted = true ∧
    commentOnDeletedDemo.is_deleted = false ∧
    ArticleViewSet.get_queryset [deletedArticleDemo] = [] := by
  refine ⟨by decide, rfl, rfl, rfl, rfl, rfl⟩

/-- C7 amended: the comment list and detail endpoints filter only on the
comment's own `is_deleted` flag; the parent article's state is enforced only
by the `by_article` endpoint, which answers not-found unless a non-deleted
published article has the requested id and then returns exactly the
non-deleted comments of that article. -/
theorem comment_visibility_amended (param : Option (List String))
    (articles : List Article) (comments : List Comment) (aid : Nat) :
    (∀ c, c ∈ CommentViewSet.list param comments ↔
      c ∈ comments ∧ c.is_deleted = false) ∧
    (∀ cid c, CommentViewSet.retrieve comments cid = .ok c →
      c ∈ comments ∧ c.is_deleted = false) ∧
    ((∃ cs, CommentViewSet.by_article articles comments aid = .ok cs) ↔
      ∃ a ∈ articles, a.id = aid ∧ a.is_deleted = false ∧ a.fields.is_published = true) ∧
    (∀ cs, CommentViewSet.by_article articles comments aid = .ok cs →
      ∀ c, c ∈ cs ↔ c ∈ comments ∧ c.fields.article = aid ∧ c.is_deleted = false) := by
  refine ⟨?_, ?_, ?_, ?_⟩
  · intro c
    have hmem : c ∈ order_by (OrderingFilter.get_ordering param CommentViewSet.ordering)
        (CommentFilter.qs comments) ↔ c ∈ CommentFilter.qs comments := by
      unfold order_by
      by_cases h1 : OrderingFilter.get_ordering param CommentViewSet.ordering = ["-created_at"]
      · rw [if_pos h1]
        exact (List.perm_insertionSort newestFirst _).mem_iff
      · rw [if_neg h1]
        by_cases h2 : OrderingFilter.get_ordering param CommentViewSet.ordering = ["created_at"]
        · rw [if_pos h2]
          exact (List.perm_insertionSort oldestFirst _).mem_iff
        · rw [if_neg h2]
    rw [CommentViewSet.list, hmem]
    simp [CommentFilter.qs, CommentViewSet.get_queryset, SoftDeleteManager.get_queryset,
      List.mem_filter]
  · intro cid c hret
    unfold CommentViewSet.retrieve at hret
    cases hfind : (CommentFilter.qs comments).find? (fun c => c.id == cid) with
    | none => rw [hfind] at hret; exact absurd hret (by simp)
    | some c' =>
      rw [hfind] at hret
      have hc : c' = c := by injection hret
      subst hc
      have hmem := List.mem_of_find?_eq_some hfind
      have := List.mem_filter.mp hmem
      have h1 := List.mem_filter.mp this.1
      exact ⟨h1.1, by simpa using this.2⟩
  · constructor
    · rintro ⟨cs, hok⟩
      unfold CommentViewSet.by_article at hok
      cases hfind : (ArticleManager.published articles).find? (fun a => a.id == aid) with
      | none => rw [hfind] at hok; exact absurd hok (by simp)
      | some a =>
        have hmem := List.mem_of_find?_eq_some hfind
        have hpred := List.find?_some hfind
        have := List.mem_filter.mp hmem
        have h1 := List.mem_filter.mp this.1
        exact ⟨a, h1.1, eq_of_beq hpred, by simpa using h1.2, this.2⟩
    · rintro ⟨a, hmem, hid, hdel, hpub⟩
      have : (ArticleManager.published articles).find? (fun a => a.id == aid) ≠ none := by
        intro hnone
        rw [List.find?_eq_none] at hnone
        have hvis : a ∈ ArticleManager.published articles := by
          refine List.mem_filter.mpr ⟨List.mem_filter.mpr ⟨hmem, by simp [hdel]⟩, by simp [hpub]⟩
        exact hnone a hvis (by simp [hid])
      unfold CommentViewSet.by_article
      cases hfind : (ArticleManager.published articles).find? (fun a => a.id == aid) with
      | none => exact absurd hfind this
      | some _ => exact ⟨_, rfl⟩
  · intro cs hok c
    unfold CommentViewSet.by_article at hok
    cases hfind : (ArticleManager.published articles).find? (fun a => a.id == aid) with
    | none => rw [hfind] at hok; exact absurd hok (by simp)
    | some a =>
      rw [hfind] at hok
      have hcs : CommentManager.for_article comments aid = cs := by injection hok
      subst hcs
      constructor
      · intro hc
        have h2 := List.mem_filter.mp hc
        have h1 := List.mem_filter.mp h2.1
        have hp := h2.2
        rw [Bool.and_eq_true] at hp
        exact ⟨h1.1, eq_of_beq hp.1, by simpa using hp.2⟩
      · rintro ⟨hmem, hart, hdel⟩
        refine List.mem_filter.mpr ⟨List.mem_filter.mpr ⟨hmem, by simp [hdel]⟩, ?_⟩
        simp [hart, hdel]

/-- C8 counterexample: with no ordering parameter, two comments created at
times 1 and 2 are listed newest first, not in chronological
(oldest-first) order as the claim states. -/
theorem comment_default_order_cex :
    CommentViewSet.list none [commentOldDemo, commentNewDemo] =
      [commentNewDemo, commentOldDemo] ∧
    commentOldDemo.created_at < commentNewDemo.created_at ∧
    [commentNewDemo, commentOldDemo] ≠ [commentOldDemo, commentNewDemo] := by
  refine ⟨by decide, by decide, by decide⟩

/-- C8 amended: when no ordering parameter is supplied, the OrderingFilter
applies the view's default `['-created_at']` — overriding the model's
`Meta.ordering = ['created_at']` — so comment listings are a permutation of
the visible comments sorted newest first. -/
theorem comment_default_order_amended (comments : List Comment) :
    OrderingFilter.get_ordering none CommentViewSet.ordering = ["-created_at"] ∧
    CommentViewSet.ordering ≠ commentMetaOrdering ∧
    List.Sorted newestFirst (CommentViewSet.list none comments) ∧
    (CommentViewSet.list none comments).Perm (CommentFilter.qs comments) := by
  refine ⟨rfl, by decide, ?_, ?_⟩
  · simp only [OrderingFilter.get_ordering, CommentViewSet.ordering, CommentViewSet.list, order_by]
    exact List.sorted_insertionSort newestFirst _
  · simp only [OrderingFilter.get_ordering, CommentViewSet.ordering, CommentViewSet.list, order_by]
    exact List.perm_insertionSort newestFirst _

/-- C9: deleting another user's like by its id answers not-found, not
forbidden — `get_queryset` restricts the lookup to the requester's own
likes, so the explicit 403 ownership branch is unreachable and every destroy
outcome is removed or not-found; the owner's delete soft-deletes the like. -/
theorem like_destroy_behavior :
    LikeViewSet.destroy likeStateDemo 2 1 5 = (likeStateDemo, .notFound) ∧
    (LikeViewSet.destroy likeStateDemo 1 1 5).2 = .removed ∧
    (LikeViewSet.destroy likeStateDemo 1 1 5).1.likes = [ownerLikeDemo.delete 5] ∧
    (ownerLikeDemo.delete 5).is_deleted = true ∧
    ∀ (st : LikeState) (u k : Nat) (now : Time),
      (LikeViewSet.destroy st u k now).2 = DestroyOutcome.removed ∨
      (LikeViewSet.destroy st u k now).2 = DestroyOutcome.notFound := by
  refine ⟨by decide, by decide, by decide, rfl, ?_⟩
  intro st u k now
  unfold LikeViewSet.destroy
  cases hfind : (LikeViewSet.get_queryset st u).find? (fun l => l.id == k) with
  | none => simp
  | some l =>
    have hmem : l ∈ LikeViewSet.get_queryset st u := List.mem_of_find?_eq_some hfind
    have huser : l.fields.user = u := eq_of_beq (List.mem_filter.mp hmem).2
    simp [huser]

/-- C10: in every reachable like state each `(user, article)` pair has at
most one non-deleted like row while every id stays below the id sequence;
re-liking a pair that is not currently liked (via toggle or create) appends
a fresh row with the next unused id — never equal to any existing row's id,
so a previously soft-deleted row is preserved, not restored. -/
theorem like_unique_fresh_insert (st : LikeState) (h : st.Reachable) :
    (∀ u aid, activeCount st.likes u aid ≤ 1) ∧
    (∀ l ∈ st.likes, l.id < st.nextId) ∧
    (∀ (u aid : Nat) (now : Time), st.likedState u aid = false →
      (LikeViewSet.toggle st u aid now).1.likes = st.likes ++
        [{ id := st.nextId, created_at := now, updated_at := now, deleted_at := none,
           is_deleted := false, fields := { user := u, article := aid } }] ∧
      (LikeViewSet.create st u aid now).1.likes = st.likes ++
        [{ id := st.nextId, created_at := now, updated_at := now, deleted_at := none,
           is_deleted := false, fields := { user := u, article := aid } }] ∧
      ∀ l ∈ st.likes, l.id ≠ st.nextId) := by
  have hinv := reachable_invariant st h
  refine ⟨hinv.2, hinv.1, ?_⟩
  intro u aid now hl
  rcases hfa : st.firstActive u aid with _ | l
  · refine ⟨?_, ?_, fun l hlmem => Nat.ne_of_lt (hinv.1 l hlmem)⟩
    · rw [toggle_when_none_state st u aid now hfa]
      rfl
    · have heq : LikeViewSet.create st u aid now =
          ((st.createRow u aid now).1, .created st.nextId) := by
        unfold LikeViewSet.create
        rw [hfa]
        rfl
      rw [heq]
      rfl
  · rw [LikeState.likedState, hfa] at hl
    simp at hl


/-! ### Witnesses -/

/-- C2 witness: the conflict and the post-soft-delete success at a concrete
one-article table. -/
theorem article_create_conflict_rule_wit :
    ArticleCreateSerializer.create [tagDemoArticle] 1 "Hello post" "c" "" 2 7 =
      ([tagDemoArticle], .conflict) ∧
    ∃ row,
      ArticleCreateSerializer.create (softDeleteRowById [tagDemoArticle] 1 9)
          1 "Hello post" "c" "" 2 7 =
        (softDeleteRowById [tagDemoArticle] 1 9 ++ [row], .created row) ∧
      row.is_deleted = false ∧ row.fields.author = 1 ∧ row.fields.title = "Hello post" :=
  article_create_conflict_rule [tagDemoArticle] 1 "Hello post" "c" "" 2 1 7 9
    ⟨tagDemoArticle, List.mem_singleton.mpr rfl, rfl, rfl, rfl⟩
    (by intro a ha h1 h2 h3; simp at ha; subst ha; rfl)

/-- C3 witness: the toggle semantics at the concrete reachable state produced
by one toggle from the empty store. -/
theorem like_toggle_pair_semantics_wit :
    ((LikeViewSet.toggle { likes := [], nextId := 0 } 1 1 1).1.likedState 1 1 = true →
      (LikeViewSet.toggle (LikeViewSet.toggle { likes := [], nextId := 0 } 1 1 1).1 1 1 2).2 =
        false ∧
      (LikeViewSet.toggle
        (LikeViewSet.toggle { likes := [], nextId := 0 } 1 1 1).1 1 1 2).1.likedState 1 1 =
        false ∧
      LikeViewSet.create (LikeViewSet.toggle { likes := [], nextId := 0 } 1 1 1).1 1 1 2 =
        ((LikeViewSet.toggle { likes := [], nextId := 0 } 1 1 1).1, .alreadyLiked)) ∧
    ((LikeViewSet.toggle { likes := [], nextId := 0 } 1 1 1).1.likedState 1 1 = false →
      (LikeViewSet.toggle (LikeViewSet.toggle { likes := [], nextId := 0 } 1 1 1).1 1 1 2).2 =
        true ∧
      (LikeViewSet.toggle
        (LikeViewSet.toggle { likes := [], nextId := 0 } 1 1 1).1 1 1 2).1.likedState 1 1 =
        true) ∧
    (LikeViewSet.toggle
      (LikeViewSet.toggle
        (LikeViewSet.toggle { likes := [], nextId := 0 } 1 1 1).1 1 1 2).1 1 1 3).1.likedState
        1 1 =
      (LikeViewSet.toggle { likes := [], nextId := 0 } 1 1 1).1.likedState 1 1 :=
  like_toggle_pair_semantics (LikeViewSet.toggle { likes := [], nextId := 0 } 1 1 1).1 1 1 2 3
    (LikeState.Reachable.toggle 1 1 1 LikeState.Reachable.init)

/-- C6 witness: the visibility facts at a concrete two-article table (a draft
and a soft-deleted article) for the anonymous principal and user 1. -/
theorem article_read_visibility_wit :
    (∀ b, b ∈ ArticleViewSet.get_queryset [draftArticleDemo, deletedArticleDemo] ↔
      b ∈ [draftArticleDemo, deletedArticleDemo] ∧ b.is_deleted = false ∧
      b.fields.is_published = true) ∧
    (∀ a ∈ [draftArticleDemo, deletedArticleDemo],
      a.is_deleted = true ∨ a.fields.is_published = false →
      ArticleViewSet.retrieve none [draftArticleDemo, deletedArticleDemo] a.id =
        .error .notFound) ∧
    (∀ aid, ArticleViewSet.retrieve none [draftArticleDemo, deletedArticleDemo] aid =
      ArticleViewSet.retrieve (some 1) [draftArticleDemo, deletedArticleDemo] aid) :=
  article_read_visibility none (some 1) [draftArticleDemo, deletedArticleDemo] (by decide)

/-- C10 witness: the uniqueness invariant and the fresh-insert behaviour at
the concrete reachable state produced by one toggle from the empty store. -/
theorem like_unique_fresh_insert_wit :
    (∀ u aid,
      activeCount (LikeViewSet.toggle { likes := [], nextId := 0 } 1 1 1).1.likes u aid ≤ 1) ∧
    (∀ l ∈ (LikeViewSet.toggle { likes := [], nextId := 0 } 1 1 1).1.likes,
      l.id < (LikeViewSet.toggle { likes := [], nextId := 0 } 1 1 1).1.nextId) ∧
    (∀ (u aid : Nat) (now : Time),
      (LikeViewSet.toggle { likes := [], nextId := 0 } 1 1 1).1.likedState u aid = false →
      (LikeViewSet.toggle
          (LikeViewSet.toggle { likes := [], nextId := 0 } 1 1 1).1 u aid now).1.likes =
        (LikeViewSet.toggle { likes := [], nextId := 0 } 1 1 1).1.likes ++
        [{ id := (LikeViewSet.toggle { likes := [], nextId := 0 } 1 1 1).1.nextId,
           created_at := now, updated_at := now, deleted_at := none,
           is_deleted := false, fields := { user := u, article := aid } }] ∧
      (LikeViewSet.create
          (LikeViewSet.toggle { likes := [], nextId := 0 } 1 1 1).1 u aid now).1.likes =
        (LikeViewSet.toggle { likes := [], nextId := 0 } 1 1 1).1.likes ++
        [{ id := (LikeViewSet.toggle { likes := [], nextId := 0 } 1 1 1).1.nextId,
           created_at := now, updated_at := now, deleted_at := none,
           is_deleted := false, fields := { user := u, article := aid } }] ∧
      ∀ l ∈ (LikeViewSet.toggle { likes := [], nextId := 0 } 1 1 1).1.likes,
        l.id ≠ (LikeViewSet.toggle { likes := [], nextId := 0 } 1 1 1).1.nextId) :=
  like_unique_fresh_insert (LikeViewSet.toggle { likes := [], nextId := 0 } 1 1 1).1
    (LikeState.Reachable.toggle 1 1 1 LikeState.Reachable.init)

end BlogPlatform
